import Mathlib

/-!
# Verification of the route53-manager reconciliation engine

A shallow embedding, in Lean 4, of the reconciliation core of
`giantswarm/route53-manager`:

* `pkg/recordset/recordset.go` — the three-phase reconciliation engine
  (`createMissingTargetStacks`, `updateCurrentTargetStacks`,
  `deleteOrphanTargetStacks`), the stack listing pipeline (`getStacks`),
  the status classifier (`stackStatusValidSource` / `stackStatusValidTarget` /
  `stackStatusValidDelete`), the name correlator (`extractClusterName`,
  `targetStackName`) and the leftover record cleaner
  (`deleteTargetLeftovers`, `getManagedRecordSets`, `stringInSlice`);
* `pkg/recordset/stack_template.go` — the stack template and the topology
  resolution helpers (`getEniList`, `sortNetworkInterfacesByName`,
  `getNICNameFromTag`, `getStackTemplateBody`);
* `pkg/recordset/error.go` — the error classifiers (`IsNoUpdateNeededError`);
* `pkg/key/key.go` — the deterministic naming helpers (`BaseDomain`,
  `EtcdENIDNSName`, `EtcdEniResourceName`).

Go machine types are embedded as follows: Go strings become `String`
(byte-wise lexicographic comparison on ASCII data agrees with Lean's
character-wise comparison for the inputs in scope), Go `int` indices become
`Int`/`Nat`, Go slices become `List`, Go errors become `Except` /
`Option GoErr`, and the AWS clients become explicit environments (`Except`
results supplied from outside).  Logging is not modelled: a Go branch that
only logs is a branch whose two arms produce the same result here.
-/

/-! ## Strings split on a separator character

`strings.Split(s, "-")` from the Go standard library, specialised to a
single-character separator and modelled on the character list of the string:
the result always has (number of separators + 1) parts, empty parts included,
and splitting the empty string yields one empty part — exactly Go's contract.
Implemented by structural recursion so every use reduces by `decide`/`rfl`. -/
def splitChar (sep : Char) : List Char → List (List Char)
  | [] => [[]]
  | c :: cs =>
    match splitChar sep cs with
    | [] => [[]]
    | h :: t => if c = sep then [] :: h :: t else (c :: h) :: t

/-- `splitChar` never returns the empty list (Go's `strings.Split` never
returns an empty slice). -/
theorem splitChar_ne_nil (sep : Char) (l : List Char) : splitChar sep l ≠ [] := by
  cases l with
  | nil => simp [splitChar]
  | cons c cs =>
    simp only [splitChar]
    cases splitChar sep cs with
    | nil => simp
    | cons h t =>
      by_cases hc : c = sep <;> simp [hc]

/-! ## The Go error model

`microerror` sentinel errors, `microerror.Mask` wrapping, and
`awserr.Error` values, as used by `pkg/recordset/error.go`.  A `nil` Go
error is `Option.none`; a non-nil error is `some` of one of the shapes
below.  Pointer identity of the package-level sentinel variables is
modelled by the `Kind` string, which is unique per sentinel in this
package. -/
inductive GoErr where
  /-- a `*microerror.Error` sentinel value, identified by its `Kind`. -/
  | microSentinel (kind : String)
  /-- `microerror.Mask`/`microerror.Maskf` wrapping of an underlying error. -/
  | masked (e : GoErr)
  /-- an `awserr.Error` with its `Code()` and `Message()`. -/
  | aws (code message : String)
  /-- any other opaque error value. -/
  | generic (msg : String)
deriving DecidableEq

/-- `microerror.Cause`: unwraps `microerror.Mask` wrappers down to the
underlying error. -/
def microerrorCause : GoErr → GoErr
  | .masked e => microerrorCause e
  | .microSentinel k => .microSentinel k
  | .aws c m => .aws c m
  | .generic m => .generic m

/-- `var noUpdateNeededError = &microerror.Error{Kind: "noUpdateError"}`
(pkg/recordset/error.go). -/
def noUpdateNeededError : GoErr := .microSentinel "noUpdateError"

/-- `var invalidClusterNameError = &microerror.Error{Kind: "invalidClusterNameError"}`. -/
def invalidClusterNameError : GoErr := .microSentinel "invalidClusterNameError"

/-- `var tooFewResultsError = &microerror.Error{Kind: "tooFewResultsError"}`. -/
def tooFewResultsError : GoErr := .microSentinel "tooFewResultsError"

/-- `IsNoUpdateNeededError` (pkg/recordset/error.go): true when
`microerror.Cause(err)` is the `noUpdateNeededError` sentinel, or when the
error value itself is an `awserr.Error` whose code is `"ValidationError"`
and whose message is `"No updates are to be performed."`.  A `nil` error
(`none`) fails both tests: `microerror.Cause(nil)` is `nil` and the type
assertion `err.(awserr.Error)` fails. -/
def IsNoUpdateNeededError : Option GoErr → Bool
  | none => false
  | some err =>
    if microerrorCause err = noUpdateNeededError then true
    else
      match err with
      | .aws code msg => code = "ValidationError" && msg = "No updates are to be performed."
      | _ => false

/-! ## The data model: stacks, statuses, tags

`cloudformation.Stack` carries (for this program) its name, its lifecycle
status and its tags; `cloudformation.StackSummary` carries the identifier
and name returned by `ListStacks`.  The status string constants are the
`cloudformation.StackStatus*` values used by the source. -/

structure Tag where
  key : String
  value : String
deriving DecidableEq

structure Stack where
  stackName : String
  stackStatus : String
  tags : List Tag
deriving DecidableEq

structure StackSummary where
  stackId : String
  stackName : String
deriving DecidableEq

/-- `giantswarm.io/installation`, the installation tag key. -/
def installationTag : String := "giantswarm.io/installation"

/-- statuses from which valid data can be read (`stackStatusValidSource`,
pkg/recordset/recordset.go). -/
def stackStatusValidSource : List String :=
  ["CREATE_COMPLETE", "UPDATE_COMPLETE"]

/-- statuses that allow write operations to the stack
(`stackStatusValidTarget`, pkg/recordset/recordset.go). -/
def stackStatusValidTarget : List String :=
  ["CREATE_COMPLETE", "CREATE_FAILED", "DELETE_FAILED", "ROLLBACK_COMPLETE",
   "ROLLBACK_FAILED", "UPDATE_COMPLETE", "UPDATE_ROLLBACK_COMPLETE",
   "UPDATE_ROLLBACK_FAILED"]

/-- statuses indicating a stack has been deleted (`stackStatusValidDelete`). -/
def stackStatusValidDelete : List String :=
  ["DELETE_COMPLETE"]

/-- `stackHasStatus` (pkg/recordset/recordset.go): whether the stack's
status is one of `statuses`.  The Go receiver dereferences
`stack.StackStatus`, which the listing pipeline always populates. -/
def stackHasStatus (stack : Stack) (statuses : List String) : Bool :=
  statuses.any (fun status => stack.stackStatus = status)

/-! ## The name correlator -/

/-- `extractClusterName` (pkg/recordset/recordset.go, current version):
splits the stack name on `"-"`; with at least two parts returns the second
part, otherwise a masked `invalidClusterNameError`. -/
def extractClusterName (sourceStackName : String) : Except GoErr String :=
  match splitChar '-' sourceStackName.data with
  | _ :: second :: _ => .ok (String.mk second)
  | _ => .error (.masked invalidClusterNameError)

/-- `targetStackName` (pkg/recordset/recordset.go):
`strings.Replace("cluster-.*-guest-recordsets", ".*", "%s", 1)` followed by
`fmt.Sprintf` — i.e. the cluster name substituted for the wildcard. -/
def targetStackName (clusterName : String) : String :=
  "cluster-" ++ clusterName ++ "-guest-recordsets"

/-- C9: `extractClusterName` splits the stack name on `-` and returns the
second segment — `extractClusterName "cluster-foo-guest-main" = ok "foo"` —
and for every name with fewer than two `-`-delimited segments it returns
the `invalidClusterName` error instead of a cluster identifier. -/
theorem extractClusterName_spec :
    extractClusterName "cluster-foo-guest-main" = .ok "foo" ∧
    (∀ name : String, (splitChar '-' name.data).length < 2 →
      extractClusterName name = .error (.masked invalidClusterNameError)) := by
  refine ⟨rfl, ?_⟩
  intro name h
  unfold extractClusterName
  match hs : splitChar '-' name.data with
  | [] => rfl
  | [_] => rfl
  | _ :: _ :: _ =>
    rw [hs] at h
    simp only [List.length_cons] at h
    omega

/-- C9 witness: `"foo"` has a single `-`-delimited segment, and
`extractClusterName` rejects it. -/
theorem extractClusterName_spec_witness :
    (splitChar '-' "foo".data).length < 2 ∧
      extractClusterName "foo" = .error (.masked invalidClusterNameError) :=
  ⟨by decide, extractClusterName_spec.2 "foo" (by decide)⟩

/-- C7: an `UpdateStack` error is classified as the no-update-needed
condition (treated by `updateCurrentTargetStacks` as success, logged as
already up to date) exactly when it is the typed `noUpdateNeeded` sentinel
(up to `microerror.Mask` wrapping) or an AWS error with code
`ValidationError` and message `"No updates are to be performed."`; a nil
error (`none`) is never classified as no-update-needed. -/
theorem IsNoUpdateNeededError_spec :
    (∀ e : Option GoErr,
      IsNoUpdateNeededError e = true ↔
        ∃ err, e = some err ∧
          (microerrorCause err = noUpdateNeededError ∨
            err = .aws "ValidationError" "No updates are to be performed.")) ∧
    IsNoUpdateNeededError none = false := by
  refine ⟨?_, rfl⟩
  intro e
  cases e with
  | none => simp [IsNoUpdateNeededError]
  | some err =>
    simp only [IsNoUpdateNeededError]
    by_cases hc : microerrorCause err = noUpdateNeededError
    · simp [hc]
    · rw [if_neg hc]
      cases err with
      | microSentinel k => simp [hc]
      | masked e' => simp [hc]
      | generic m => simp [hc]
      | aws code msg =>
        simp only [Bool.and_eq_true, decide_eq_true_eq]
        constructor
        · rintro ⟨h1, h2⟩
          exact ⟨.aws code msg, rfl, Or.inr (by rw [h1, h2])⟩
        · rintro ⟨err', he, h | h⟩
          · cases he; exact absurd h hc
          · cases he; cases h; exact ⟨rfl, rfl⟩

/-! ## The reconciliation passes

Each pass walks one stack list with a nested scan of the other, exactly as
the `for` loops in pkg/recordset/recordset.go do.  A loop iteration that
(at most) appends one API call is embedded as `List.filterMap` with an
option-valued per-element decision function.  `getSourceStackData` performs
live lookups against the source account (load balancers, network
interfaces), so its success is an oracle `dataOk : String → Bool` indexed
by the cluster name; `getCreateStackInput`/`getUpdateStackInput` only
render the constant template over complete data and cannot fail.  A failed
`getSourceStackData` is logged and the loop continues — no call is
attempted for that cluster. -/

/-- the inner loop of `createMissingTargetStacks`: a correlated target
exists when some target stack is not in `stackStatusValidDelete` (deleted
targets are skipped) and its extracted cluster name equals
`sourceClusterName`. -/
def liveTargetExists (targetStacks : List Stack) (sourceClusterName : String) : Bool :=
  targetStacks.any (fun target =>
    !stackHasStatus target stackStatusValidDelete &&
      match extractClusterName target.stackName with
      | .ok targetClusterName => targetClusterName = sourceClusterName
      | .error _ => false)

/-- one iteration of the outer loop of `createMissingTargetStacks`:
`some name` when the iteration reaches `m.targetClient.CreateStack` with
that stack name, `none` when it skips (`continue`s) the source stack. -/
def createDecision (dataOk : String → Bool) (targetStacks : List Stack)
    (source : Stack) : Option String :=
  if stackHasStatus source stackStatusValidSource then
    match extractClusterName source.stackName with
    | .error _ => none
    | .ok sourceClusterName =>
      if liveTargetExists targetStacks sourceClusterName then none
      else if dataOk sourceClusterName then some (targetStackName sourceClusterName)
      else none
  else none

/-- `createMissingTargetStacks` (pkg/recordset/recordset.go, current
version), abstracted to the list of stack names passed to `CreateStack`,
in source order. -/
def createMissingTargetStacks (dataOk : String → Bool)
    (sourceStacks targetStacks : List Stack) : List String :=
  sourceStacks.filterMap (createDecision dataOk targetStacks)

/-- the inner loop of `updateCurrentTargetStacks`: a correlated target is
found when some target stack is in `stackStatusValidTarget` (all others
are skipped) and its extracted cluster name equals `sourceClusterName`. -/
def updatableTargetExists (targetStacks : List Stack) (sourceClusterName : String) : Bool :=
  targetStacks.any (fun target =>
    stackHasStatus target stackStatusValidTarget &&
      match extractClusterName target.stackName with
      | .ok targetClusterName => targetClusterName = sourceClusterName
      | .error _ => false)

/-- one iteration of the outer loop of `updateCurrentTargetStacks`:
`some name` when the iteration reaches `m.targetClient.UpdateStack`. -/
def updateDecision (dataOk : String → Bool) (targetStacks : List Stack)
    (source : Stack) : Option String :=
  if stackHasStatus source stackStatusValidSource then
    match extractClusterName source.stackName with
    | .error _ => none
    | .ok sourceClusterName =>
      if updatableTargetExists targetStacks sourceClusterName then
        if dataOk sourceClusterName then some (targetStackName sourceClusterName)
        else none
      else none
  else none

/-- `updateCurrentTargetStacks` (pkg/recordset/recordset.go, current
version), abstracted to the list of stack names passed to `UpdateStack`,
in source order. -/
def updateCurrentTargetStacks (dataOk : String → Bool)
    (sourceStacks targetStacks : List Stack) : List String :=
  sourceStacks.filterMap (updateDecision dataOk targetStacks)

/-- the inner loop of `deleteOrphanTargetStacks`: a correlated source
exists when some source stack is not in `stackStatusValidDelete` (deleted
sources are skipped) and its extracted cluster name equals
`targetClusterName`. -/
def liveSourceExists (sourceStacks : List Stack) (targetClusterName : String) : Bool :=
  sourceStacks.any (fun source =>
    !stackHasStatus source stackStatusValidDelete &&
      match extractClusterName source.stackName with
      | .ok sourceClusterName => sourceClusterName = targetClusterName
      | .error _ => false)

/-- one iteration of the outer loop of `deleteOrphanTargetStacks`: `some
(stack name, cluster name)` when the iteration reaches
`m.deleteTargetStack` and then — whether or not that `DeleteStack` call
returned an error (`deleteOk`), the two arms of the `if err != nil` only
log — `m.deleteTargetLeftovers` for the cluster. -/
def deleteDecision (deleteOk : String → Bool) (sourceStacks : List Stack)
    (target : Stack) : Option (String × String) :=
  if stackHasStatus target stackStatusValidDelete then none
  else
    match extractClusterName target.stackName with
    | .error _ => none
    | .ok targetClusterName =>
      if liveSourceExists sourceStacks targetClusterName then none
      else if deleteOk target.stackName then some (target.stackName, targetClusterName)
      else some (target.stackName, targetClusterName)

/-- `deleteOrphanTargetStacks` (pkg/recordset/recordset.go, current
version), abstracted to the list of `(DeleteStack stack name,
deleteTargetLeftovers cluster name)` pairs of calls it issues, in target
order. -/
def deleteOrphanTargetStacks (deleteOk : String → Bool)
    (sourceStacks targetStacks : List Stack) : List (String × String) :=
  targetStacks.filterMap (deleteDecision deleteOk sourceStacks)

/-- `targetStackName` is injective: distinct cluster names yield distinct
target stack names. -/
theorem targetStackName_inj {a b : String} (h : targetStackName a = targetStackName b) :
    a = b := by
  have hd : ("cluster-".data ++ a.data) ++ "-guest-recordsets".data
      = ("cluster-".data ++ b.data) ++ "-guest-recordsets".data := by
    have := congrArg String.data h
    simpa [targetStackName, String.data_append] using this
  have hab : a.data = b.data := List.append_cancel_left (List.append_cancel_right hd)
  cases a with
  | mk da =>
    cases b with
    | mk db => exact congrArg String.mk hab

theorem liveTargetExists_eq_false_iff (targetStacks : List Stack) (id : String) :
    liveTargetExists targetStacks id = false ↔
      ∀ t ∈ targetStacks, extractClusterName t.stackName = .ok id →
        stackHasStatus t stackStatusValidDelete = true := by
  rw [liveTargetExists, List.any_eq_false]
  constructor
  · intro h t ht he
    have h2 := h t ht
    cases hb : stackHasStatus t stackStatusValidDelete with
    | true => rfl
    | false =>
      exfalso
      apply h2
      rw [hb, he]
      simp
  · intro h t ht hp
    rw [Bool.and_eq_true] at hp
    obtain ⟨h1, h2⟩ := hp
    cases he : extractClusterName t.stackName with
    | error e => rw [he] at h2; simp at h2
    | ok tid =>
      rw [he] at h2
      simp only [decide_eq_true_eq] at h2
      subst h2
      have hd := h t ht he
      rw [hd] at h1
      simp at h1

theorem createDecision_eq_some_iff (dataOk : String → Bool)
    (h : ∀ c, dataOk c = true) (targetStacks : List Stack) (s : Stack) (id : String) :
    createDecision dataOk targetStacks s = some (targetStackName id) ↔
      (extractClusterName s.stackName = .ok id ∧
        stackHasStatus s stackStatusValidSource = true ∧
        liveTargetExists targetStacks id = false) := by
  constructor
  · intro hc
    unfold createDecision at hc
    by_cases hv : stackHasStatus s stackStatusValidSource = true
    case neg => rw [if_neg hv] at hc; cases hc
    rw [if_pos hv] at hc
    cases he : extractClusterName s.stackName with
    | error e => rw [he] at hc; cases hc
    | ok cn =>
      rw [he] at hc
      dsimp only at hc
      by_cases hl : liveTargetExists targetStacks cn = true
      · rw [if_pos hl] at hc; cases hc
      · rw [if_neg hl, if_pos (h cn)] at hc
        have hcn : cn = id := targetStackName_inj (Option.some.inj hc)
        subst hcn
        refine ⟨rfl, hv, ?_⟩
        cases hll : liveTargetExists targetStacks cn with
        | false => rfl
        | true => exact absurd hll hl
  · rintro ⟨h1, h2, h3⟩
    unfold createDecision
    rw [if_pos h2, h1]
    dsimp only
    rw [if_neg (by rw [h3]; simp), if_pos (h id)]

/-- C1: `createMissingTargetStacks` attempts a `CreateStack` call for the
derived target name `cluster-<id>-guest-recordsets` if and only if some
listed source stack for cluster `<id>` has status in `ValidSource`
(`CREATE_COMPLETE`/`UPDATE_COMPLETE`) and every listed target stack whose
cluster identifier is `<id>` has status `DELETE_COMPLETE` (equivalently:
no target shares the identifier, or all that do are fully deleted).
Stated under the assumption that `getSourceStackData` succeeds for every
cluster (`dataOk`); a data-resolution failure is logged and suppresses the
call. -/
theorem createMissingTargetStacks_gating (dataOk : String → Bool)
    (h : ∀ c, dataOk c = true) (sourceStacks targetStacks : List Stack) (id : String) :
    targetStackName id ∈ createMissingTargetStacks dataOk sourceStacks targetStacks ↔
      ∃ s ∈ sourceStacks,
        extractClusterName s.stackName = .ok id ∧
        stackHasStatus s stackStatusValidSource = true ∧
        ∀ t ∈ targetStacks, extractClusterName t.stackName = .ok id →
          stackHasStatus t stackStatusValidDelete = true := by
  unfold createMissingTargetStacks
  rw [List.mem_filterMap]
  constructor
  · rintro ⟨s, hs, hd⟩
    rw [createDecision_eq_some_iff dataOk h] at hd
    obtain ⟨h1, h2, h3⟩ := hd
    exact ⟨s, hs, h1, h2, (liveTargetExists_eq_false_iff targetStacks id).mp h3⟩
  · rintro ⟨s, hs, h1, h2, h3⟩
    refine ⟨s, hs, ?_⟩
    rw [createDecision_eq_some_iff dataOk h]
    exact ⟨h1, h2, (liveTargetExists_eq_false_iff targetStacks id).mpr h3⟩

/-- C1 witness: with one `CREATE_COMPLETE` source stack for cluster `foo`
and no target stacks, the create pass issues exactly the call for
`cluster-foo-guest-recordsets`. -/
theorem createMissingTargetStacks_gating_witness :
    "cluster-foo-guest-recordsets" ∈
      createMissingTargetStacks (fun _ => true)
        [⟨"cluster-foo-tccp", "CREATE_COMPLETE", []⟩] [] :=
  (createMissingTargetStacks_gating (fun _ => true) (fun _ => rfl)
      [⟨"cluster-foo-tccp", "CREATE_COMPLETE", []⟩] [] "foo").mpr
    ⟨⟨"cluster-foo-tccp", "CREATE_COMPLETE", []⟩, by decide, rfl, by decide,
      fun t ht => absurd ht (List.not_mem_nil t)⟩

theorem updatableTargetExists_eq_true_iff (targetStacks : List Stack) (id : String) :
    updatableTargetExists targetStacks id = true ↔
      ∃ t ∈ targetStacks, stackHasStatus t stackStatusValidTarget = true ∧
        extractClusterName t.stackName = .ok id := by
  rw [updatableTargetExists, List.any_eq_true]
  constructor
  · rintro ⟨t, ht, hp⟩
    rw [Bool.and_eq_true] at hp
    obtain ⟨h1, h2⟩ := hp
    cases he : extractClusterName t.stackName with
    | error e => rw [he] at h2; cases h2
    | ok tid =>
      rw [he] at h2
      simp only [decide_eq_true_eq] at h2
      subst h2
      exact ⟨t, ht, h1, he⟩
  · rintro ⟨t, ht, h1, h2⟩
    refine ⟨t, ht, ?_⟩
    rw [Bool.and_eq_true, h2]
    exact ⟨h1, by simp⟩

theorem updateDecision_eq_some_iff (dataOk : String → Bool)
    (h : ∀ c, dataOk c = true) (targetStacks : List Stack) (s : Stack) (id : String) :
    updateDecision dataOk targetStacks s = some (targetStackName id) ↔
      (extractClusterName s.stackName = .ok id ∧
        stackHasStatus s stackStatusValidSource = true ∧
        updatableTargetExists targetStacks id = true) := by
  constructor
  · intro hc
    unfold updateDecision at hc
    by_cases hv : stackHasStatus s stackStatusValidSource = true
    case neg => rw [if_neg hv] at hc; cases hc
    rw [if_pos hv] at hc
    cases he : extractClusterName s.stackName with
    | error e => rw [he] at hc; cases hc
    | ok cn =>
      rw [he] at hc
      dsimp only at hc
      by_cases hu : updatableTargetExists targetStacks cn = true
      · rw [if_pos hu, if_pos (h cn)] at hc
        have hcn : cn = id := targetStackName_inj (Option.some.inj hc)
        subst hcn
        exact ⟨rfl, hv, hu⟩
      · rw [if_neg hu] at hc; cases hc
  · rintro ⟨h1, h2, h3⟩
    unfold updateDecision
    rw [if_pos h2, h1]
    dsimp only
    rw [if_pos h3, if_pos (h id)]

/-- C2: `updateCurrentTargetStacks` attempts an `UpdateStack` call for
cluster `<id>` if and only if some listed source stack for `<id>` has
status in `ValidSource` and some listed target stack sharing the cluster
identifier has status in `ValidTarget` = {CREATE_COMPLETE,
UPDATE_COMPLETE, ROLLBACK_COMPLETE, UPDATE_ROLLBACK_COMPLETE,
CREATE_FAILED, ROLLBACK_FAILED, DELETE_FAILED, UPDATE_ROLLBACK_FAILED};
in particular a correlated target in any `*_IN_PROGRESS` status (not a
member of `stackStatusValidTarget`) never triggers an update.  Stated
under the assumption that `getSourceStackData` succeeds for every cluster
(`dataOk`); a data-resolution failure is logged and suppresses the call. -/
theorem updateCurrentTargetStacks_gating (dataOk : String → Bool)
    (h : ∀ c, dataOk c = true) (sourceStacks targetStacks : List Stack) (id : String) :
    targetStackName id ∈ updateCurrentTargetStacks dataOk sourceStacks targetStacks ↔
      ∃ s ∈ sourceStacks,
        extractClusterName s.stackName = .ok id ∧
        stackHasStatus s stackStatusValidSource = true ∧
        ∃ t ∈ targetStacks, stackHasStatus t stackStatusValidTarget = true ∧
          extractClusterName t.stackName = .ok id := by
  unfold updateCurrentTargetStacks
  rw [List.mem_filterMap]
  constructor
  · rintro ⟨s, hs, hd⟩
    rw [updateDecision_eq_some_iff dataOk h] at hd
    obtain ⟨h1, h2, h3⟩ := hd
    exact ⟨s, hs, h1, h2, (updatableTargetExists_eq_true_iff targetStacks id).mp h3⟩
  · rintro ⟨s, hs, h1, h2, h3⟩
    refine ⟨s, hs, ?_⟩
    rw [updateDecision_eq_some_iff dataOk h]
    exact ⟨h1, h2, (updatableTargetExists_eq_true_iff targetStacks id).mpr h3⟩

/-- C2 witness: source `UPDATE_COMPLETE` with target `ROLLBACK_FAILED` for
cluster `foo` leads to an `UpdateStack` attempt; the claim's in-progress
example (target `DELETE_IN_PROGRESS` only) would fail the right-hand side. -/
theorem updateCurrentTargetStacks_gating_witness :
    "cluster-foo-guest-recordsets" ∈
      updateCurrentTargetStacks (fun _ => true)
        [⟨"cluster-foo-tccp", "UPDATE_COMPLETE", []⟩]
        [⟨"cluster-foo-guest-recordsets", "ROLLBACK_FAILED", []⟩] :=
  (updateCurrentTargetStacks_gating (fun _ => true) (fun _ => rfl)
      [⟨"cluster-foo-tccp", "UPDATE_COMPLETE", []⟩]
      [⟨"cluster-foo-guest-recordsets", "ROLLBACK_FAILED", []⟩] "foo").mpr
    ⟨⟨"cluster-foo-tccp", "UPDATE_COMPLETE", []⟩, by decide, rfl, by decide,
      ⟨"cluster-foo-guest-recordsets", "ROLLBACK_FAILED", []⟩, by decide, by decide, rfl⟩

theorem liveSourceExists_eq_false_iff (sourceStacks : List Stack) (id : String) :
    liveSourceExists sourceStacks id = false ↔
      ∀ s ∈ sourceStacks, stackHasStatus s stackStatusValidDelete = false →
        extractClusterName s.stackName ≠ .ok id := by
  rw [liveSourceExists, List.any_eq_false]
  constructor
  · intro h s hs hd he
    apply h s hs
    rw [hd, he]
    simp
  · intro h s hs hp
    rw [Bool.and_eq_true] at hp
    obtain ⟨h1, h2⟩ := hp
    rw [Bool.not_eq_true'] at h1
    cases he : extractClusterName s.stackName with
    | error e => rw [he] at h2; cases h2
    | ok sid =>
      rw [he] at h2
      simp only [decide_eq_true_eq] at h2
      subst h2
      exact h s hs h1 he

theorem deleteDecision_eq_some_iff (deleteOk : String → Bool)
    (sourceStacks : List Stack) (t : Stack) (name id : String) :
    deleteDecision deleteOk sourceStacks t = some (name, id) ↔
      (t.stackName = name ∧ extractClusterName t.stackName = .ok id ∧
        stackHasStatus t stackStatusValidDelete = false ∧
        liveSourceExists sourceStacks id = false) := by
  unfold deleteDecision
  by_cases hd : stackHasStatus t stackStatusValidDelete = true
  · rw [if_pos hd]
    constructor
    · intro hc; cases hc
    · rintro ⟨-, -, h3, -⟩
      rw [hd] at h3
      cases h3
  · rw [if_neg hd]
    rw [Bool.not_eq_true] at hd
    cases he : extractClusterName t.stackName with
    | error e =>
      constructor
      · intro hc; cases hc
      · rintro ⟨-, h2, -⟩; cases h2
    | ok cn =>
      dsimp only
      by_cases hl : liveSourceExists sourceStacks cn = true
      · rw [if_pos hl]
        constructor
        · intro hc; cases hc
        · rintro ⟨-, h2, -, h4⟩
          cases h2
          rw [hl] at h4
          cases h4
      · rw [if_neg hl, ite_self]
        rw [Bool.not_eq_true] at hl
        constructor
        · intro hc
          obtain ⟨hn, hcn⟩ := Prod.mk.injEq .. ▸ Option.some.inj hc
          subst hn
          subst hcn
          exact ⟨rfl, rfl, hd, hl⟩
        · rintro ⟨h1, h2, -, -⟩
          cases h2
          rw [h1]

/-- C3: `deleteOrphanTargetStacks` issues a `DeleteStack` call for a
target stack exactly when the target's status is not `DELETE_COMPLETE` and
no source stack with status other than `DELETE_COMPLETE` shares its
cluster identifier; every such delete attempt is paired with an invocation
of the leftover-record cleaner (`deleteTargetLeftovers`) for the target's
cluster, and the two conjuncts below hold for every `DeleteStack` outcome
oracle, so the pairing does not depend on whether the `DeleteStack` call
failed.  Call pairs are `(DeleteStack stack name, cleaner cluster name)`. -/
theorem deleteOrphanTargetStacks_gating (deleteOk deleteAlt : String → Bool)
    (sourceStacks targetStacks : List Stack) (name id : String) :
    ((name, id) ∈ deleteOrphanTargetStacks deleteOk sourceStacks targetStacks ↔
      ∃ t ∈ targetStacks, t.stackName = name ∧
        extractClusterName t.stackName = .ok id ∧
        stackHasStatus t stackStatusValidDelete = false ∧
        ∀ s ∈ sourceStacks, stackHasStatus s stackStatusValidDelete = false →
          extractClusterName s.stackName ≠ .ok id) ∧
    deleteOrphanTargetStacks deleteOk sourceStacks targetStacks =
      deleteOrphanTargetStacks deleteAlt sourceStacks targetStacks := by
  constructor
  · unfold deleteOrphanTargetStacks
    rw [List.mem_filterMap]
    constructor
    · rintro ⟨t, ht, hd⟩
      rw [deleteDecision_eq_some_iff] at hd
      obtain ⟨h1, h2, h3, h4⟩ := hd
      exact ⟨t, ht, h1, h2, h3, (liveSourceExists_eq_false_iff sourceStacks id).mp h4⟩
    · rintro ⟨t, ht, h1, h2, h3, h4⟩
      refine ⟨t, ht, ?_⟩
      rw [deleteDecision_eq_some_iff]
      exact ⟨h1, h2, h3, (liveSourceExists_eq_false_iff sourceStacks id).mpr h4⟩
  · unfold deleteOrphanTargetStacks
    congr 1
    funext t
    unfold deleteDecision
    by_cases hd : stackHasStatus t stackStatusValidDelete = true
    · rw [if_pos hd, if_pos hd]
    · rw [if_neg hd, if_neg hd]
      cases extractClusterName t.stackName with
      | error e => rfl
      | ok cn =>
        dsimp only
        by_cases hl : liveSourceExists sourceStacks cn = true
        · rw [if_pos hl, if_pos hl]
        · rw [if_neg hl, if_neg hl, ite_self, ite_self]

/-! ## Stack-name patterns

The three name patterns compiled in `init()` all have the shape
`<literal>.*<literal>` with an optional `$` anchor
(`cluster-.*-guest-main`, `cluster-.*-tccp$`,
`cluster-.*-guest-recordsets`).  `regexp.Match` is unanchored on both
sides unless the pattern anchors it, and under RE2 defaults `.` matches
any character except a newline while `$` matches only at the end of the
text.  The matcher below implements exactly that semantics for this
pattern shape. -/

/-- match `.*<post>` (with optional `$`) against `s`: either `post`
matches at the current position (consuming all of `s` when `endAnchored`),
or `.*` consumes one non-newline character and matching continues. -/
def midDotStar (post : List Char) (endAnchored : Bool) : List Char → Bool
  | [] => post.isEmpty
  | c :: rest =>
    (post.isPrefixOf (c :: rest) && (!endAnchored || post.length == (c :: rest).length))
      || (c != '\n' && midDotStar post endAnchored rest)

/-- match `<pre>.*<post>` (with optional `$`) at the start of `s`. -/
def matchDotStarFrom (pre post : List Char) (endAnchored : Bool) (s : List Char) : Bool :=
  pre.isPrefixOf s && midDotStar post endAnchored (s.drop pre.length)

/-- match `<pre>.*<post>` (with optional `$`) anywhere in `s` — the
left-unanchored semantics of `regexp.Match`. -/
def matchDotStarAnywhere (pre post : List Char) (endAnchored : Bool) : List Char → Bool
  | [] => matchDotStarFrom pre post endAnchored []
  | c :: rest =>
    matchDotStarFrom pre post endAnchored (c :: rest)
      || matchDotStarAnywhere pre post endAnchored rest

/-- a compiled stack-name pattern of the shape `<pre>.*<post>` with an
optional end-of-text anchor. -/
structure StackNameRE where
  pre : String
  post : String
  endAnchored : Bool

def reMatch (re : StackNameRE) (s : String) : Bool :=
  matchDotStarAnywhere re.pre.data re.post.data re.endAnchored s.data

/-- `legacySourceStackNamePattern = "cluster-.*-guest-main"`. -/
def legacySourceStackNameRE : StackNameRE := ⟨"cluster-", "-guest-main", false⟩

/-- `sourceStackNamePattern = "cluster-.*-tccp$"`. -/
def currentSourceStackNameRE : StackNameRE := ⟨"cluster-", "-tccp", true⟩

/-- `targetStackNamePattern = "cluster-.*-guest-recordsets"`. -/
def targetStackNameRE : StackNameRE := ⟨"cluster-", "-guest-recordsets", false⟩

/-- `sourceStackNameREs` as built by `init()`. -/
def sourceStackNameREs : List StackNameRE :=
  [legacySourceStackNameRE, currentSourceStackNameRE]

/-- `targetStackNameREs` as built by `init()`. -/
def targetStackNameREs : List StackNameRE := [targetStackNameRE]

/-- `sourceStackIsLegacy` (pkg/recordset/recordset.go):
`regexp.Match(legacySourceStackNamePattern, name)`; the pattern constant is
valid, so the Go error result is always nil and is not modelled. -/
def sourceStackIsLegacy (sourceStackName : String) : Bool :=
  reMatch legacySourceStackNameRE sourceStackName

/-- `validStackName` (pkg/recordset/recordset.go, current version): the
summary's name matches one of the compiled patterns. -/
def validStackName (stack : StackSummary) (res : List StackNameRE) : Bool :=
  res.any (fun re => reMatch re stack.stackName)

/-- `validStackInstallationTag` (pkg/recordset/recordset.go, current
version) returns the index of the first described stack carrying the
installation tag with the matching value, or `-1`; `getStacks` then keeps
`stacks.Stacks[key]`.  Index-then-select is embedded as selecting the
first matching stack. -/
def validStackInstallationTag (described : List Stack) (installation : String) : Option Stack :=
  described.find? (fun stack =>
    stack.tags.any (fun tag => tag.key = installationTag && tag.value = installation))

/-! ## The listing pipeline and `Sync` -/

/-- one CloudFormation account client: the `ListStacks` response (the Go
code requests `stackStatusValid`, every status except `DELETE_COMPLETE`,
as the server-side filter) and the per-stack-id `DescribeStacks`
responses. -/
structure ClientEnv where
  listStacksResult : Except GoErr (List StackSummary)
  describeStacksResult : String → Except GoErr (List Stack)

/-- the loop of `getStacks` over the listed summaries: name-filtered
summaries are described (a describe error aborts the whole listing);
described stacks without the installation tag are dropped. -/
def getStacksLoop (describe : String → Except GoErr (List Stack))
    (res : List StackNameRE) (installation : String) :
    List StackSummary → Except GoErr (List Stack)
  | [] => .ok []
  | item :: rest =>
    if validStackName item res then
      match describe item.stackId with
      | .error e => .error e
      | .ok described =>
        match validStackInstallationTag described installation with
        | none => getStacksLoop describe res installation rest
        | some st => (getStacksLoop describe res installation rest).map (st :: ·)
    else getStacksLoop describe res installation rest

/-- `getStacks` (pkg/recordset/recordset.go, current version). -/
def getStacks (cl : ClientEnv) (res : List StackNameRE) (installation : String) :
    Except GoErr (List Stack) :=
  match cl.listStacksResult with
  | .error e => .error e
  | .ok summaries => getStacksLoop cl.describeStacksResult res installation summaries

/-- the environment `Manager.Sync` runs against: the two account clients,
the installation name, and the per-cluster oracles for the fallible
per-cluster steps (`getSourceStackData` success, `DeleteStack` success). -/
structure SyncEnv where
  installation : String
  sourceClient : ClientEnv
  targetClient : ClientEnv
  dataOk : String → Bool
  deleteOk : String → Bool

/-- `Manager.Sync` (pkg/recordset/recordset.go, current version): list and
describe both accounts (`sourceStacks`, `targetStacks`), then run the
three passes.  In the Go code each pass returns an `error`, but every
per-cluster failure inside a pass is logged and `continue`d, and the only
early `return` inside a pass re-raises `sourceStackIsLegacy`'s regex
error, which is nil for the constant valid pattern — so the passes are
total here and `Sync`'s result is `ok` exactly when both listings
succeed. -/
def Sync (env : SyncEnv) :
    Except GoErr (List String × List String × List (String × String)) :=
  match getStacks env.sourceClient sourceStackNameREs env.installation with
  | .error e => .error e
  | .ok sourceStacks =>
    match getStacks env.targetClient targetStackNameREs env.installation with
    | .error e => .error e
    | .ok targetStacks =>
      .ok (createMissingTargetStacks env.dataOk sourceStacks targetStacks,
           updateCurrentTargetStacks env.dataOk sourceStacks targetStacks,
           deleteOrphanTargetStacks env.deleteOk sourceStacks targetStacks)

/-- C8: `Sync` returns an error exactly when listing or describing the
source stacks or the target stacks fails (`getStacks` fails only on a
`ListStacks` error or a `DescribeStacks` error), and its success is
independent of the per-cluster oracles — an error in any per-cluster step
of the three passes (cluster-name extraction, topology resolution,
template rendering, `CreateStack`, `UpdateStack`, `DeleteStack`, leftover
cleanup) is logged and the loop continues, never surfacing from `Sync`. -/
theorem Sync_error_iff (inst : String) (src tgt : ClientEnv)
    (dataOk deleteOk dataOk2 deleteOk2 : String → Bool) :
    ((Sync ⟨inst, src, tgt, dataOk, deleteOk⟩).isOk =
      ((getStacks src sourceStackNameREs inst).isOk &&
        (getStacks tgt targetStackNameREs inst).isOk)) ∧
    (Sync ⟨inst, src, tgt, dataOk, deleteOk⟩).isOk =
      (Sync ⟨inst, src, tgt, dataOk2, deleteOk2⟩).isOk := by
  unfold Sync
  cases getStacks src sourceStackNameREs inst with
  | error e => exact ⟨rfl, rfl⟩
  | ok srcStacks =>
    cases getStacks tgt targetStackNameREs inst with
    | error e => exact ⟨rfl, rfl⟩
    | ok tgtStacks => exact ⟨rfl, rfl⟩

/-! ## The leftover record cleaner

`deleteTargetLeftovers` matches each record-set name with
`regexp.Match(fmt.Sprintf("^*.%s.%s.$", targetClusterName,
m.targetHostedZoneName), name)`.  Under RE2 semantics (Go accepts `^*` as
a repetition of the `^` assertion, which matches the empty string, so the
pattern is not anchored on the left), `$` anchors the match to the end of
the text, and each unescaped `.` — including the leading one and every
dot inside the interpolated cluster and zone names — matches any single
character except a newline.  The pattern therefore matches exactly when
the final `1 + |cluster| + 1 + |zone| + 1` characters of the name match
the character sequence `.<cluster>.<zone>.` position-wise with `.` as a
single-character wildcard.  This embedding is faithful whenever the
cluster and zone names contain no regex metacharacters other than `.`
(true of cluster identifiers and DNS zone names). -/

/-- position-wise match of a text fragment (left) against a pattern
fragment (right) in which `.` matches any character except `'\n'` and
every other character matches only itself. -/
def charsMatchPairwise : List Char → List Char → Bool
  | [], [] => true
  | c :: cs, p :: ps =>
    (if p = '.' then c != '\n' else c == p) && charsMatchPairwise cs ps
  | _, _ => false

/-- the record-name test performed by `deleteTargetLeftovers`
(pkg/recordset/recordset.go, current version):
`regexp.Match("^*." ++ cluster ++ "." ++ zone ++ ".$", name)`. -/
def leftoverRecordSetMatch (targetClusterName hostedZoneName name : String) : Bool :=
  let pat := ('.' :: targetClusterName.data) ++ (('.' :: hostedZoneName.data) ++ ['.'])
  decide (pat.length ≤ name.data.length) &&
    charsMatchPairwise (name.data.drop (name.data.length - pat.length)) pat

/-- `getManagedRecordSets` (pkg/recordset/recordset.go): the seven record
names the stack itself manages — the `\052` (`*`) wildcard, `api`,
`etcd`, `etcd1`, `etcd2`, `etcd3` and `ingress`, all under
`<clusterID>.<baseDomain>.`. -/
def getManagedRecordSets (clusterID baseDomain : String) : List String :=
  ["\\052." ++ clusterID ++ "." ++ baseDomain ++ ".",
   "api." ++ clusterID ++ "." ++ baseDomain ++ ".",
   "etcd." ++ clusterID ++ "." ++ baseDomain ++ ".",
   "etcd1." ++ clusterID ++ "." ++ baseDomain ++ ".",
   "etcd2." ++ clusterID ++ "." ++ baseDomain ++ ".",
   "etcd3." ++ clusterID ++ "." ++ baseDomain ++ ".",
   "ingress." ++ clusterID ++ "." ++ baseDomain ++ "."]

/-- `stringInSlice` (pkg/recordset/recordset.go). -/
def stringInSlice (str : String) (list : List String) : Bool :=
  list.any (fun value => value = str)

/-- one Route53 record set; only the name takes part in the match and
allow-list decisions — the remaining fields (type, TTL, records, alias
target, weight, set identifier) are copied verbatim into the queued
`DELETE` change and never inspected. -/
structure ResourceRecordSet where
  name : String
deriving DecidableEq

/-- the `DELETE` changes queued by one `deleteTargetLeftovers` run
(pkg/recordset/recordset.go, current version), identified by record name,
in listing order. -/
def deleteTargetLeftoversChanges (targetClusterName hostedZoneName : String)
    (resourceRecordSets : List ResourceRecordSet) : List String :=
  resourceRecordSets.filterMap (fun rr =>
    if leftoverRecordSetMatch targetClusterName hostedZoneName rr.name &&
        !stringInSlice rr.name (getManagedRecordSets targetClusterName hostedZoneName)
    then some rr.name else none)

/-- whether the run issues the single batch `ChangeResourceRecordSets`
request: `if len(route53Changes) > 0`. -/
def deleteTargetLeftoversBatchIssued (targetClusterName hostedZoneName : String)
    (resourceRecordSets : List ResourceRecordSet) : Bool :=
  !(deleteTargetLeftoversChanges targetClusterName hostedZoneName resourceRecordSets).isEmpty

theorem stringInSlice_iff (str : String) (l : List String) :
    stringInSlice str l = true ↔ str ∈ l := by
  rw [stringInSlice, List.any_eq_true]
  constructor
  · rintro ⟨v, hv, he⟩
    simp only [decide_eq_true_eq] at he
    exact he ▸ hv
  · intro h
    exact ⟨str, h, by simp⟩

/-- C6: `deleteTargetLeftovers` queues a `DELETE` change for a listed
record exactly when the record's name matches the
`^*.<clusterID>.<hostedZoneName>.$` pattern and is not one of the seven
managed names, and the single batch `ChangeResourceRecordSets` request is
issued exactly when the queue is non-empty; concretely, for cluster `foo`
and zone `example.com`, `custom.foo.example.com.` is queued and
`api.foo.example.com.` is not. -/
theorem deleteTargetLeftovers_gating (cluster zone : String)
    (rrs : List ResourceRecordSet) (n : String) :
    (n ∈ deleteTargetLeftoversChanges cluster zone rrs ↔
      ∃ rr ∈ rrs, rr.name = n ∧ leftoverRecordSetMatch cluster zone n = true ∧
        n ∉ getManagedRecordSets cluster zone) ∧
    (deleteTargetLeftoversBatchIssued cluster zone rrs = true ↔
      deleteTargetLeftoversChanges cluster zone rrs ≠ []) ∧
    "custom.foo.example.com." ∈ deleteTargetLeftoversChanges "foo" "example.com"
      [⟨"custom.foo.example.com."⟩, ⟨"api.foo.example.com."⟩] ∧
    "api.foo.example.com." ∉ deleteTargetLeftoversChanges "foo" "example.com"
      [⟨"custom.foo.example.com."⟩, ⟨"api.foo.example.com."⟩] := by
  refine ⟨?_, ?_, by decide, by decide⟩
  · rw [deleteTargetLeftoversChanges, List.mem_filterMap]
    constructor
    · rintro ⟨rr, hrr, hd⟩
      by_cases hm : (leftoverRecordSetMatch cluster zone rr.name &&
          !stringInSlice rr.name (getManagedRecordSets cluster zone)) = true
      · rw [if_pos hm] at hd
        have hn := Option.some.inj hd
        subst hn
        rw [Bool.and_eq_true] at hm
        refine ⟨rr, hrr, rfl, hm.1, ?_⟩
        intro hmem
        have := (stringInSlice_iff rr.name (getManagedRecordSets cluster zone)).mpr hmem
        rw [this] at hm
        cases hm.2
      · rw [if_neg hm] at hd
        cases hd
    · rintro ⟨rr, hrr, hname, hmatch, hnotman⟩
      refine ⟨rr, hrr, ?_⟩
      have hsl : stringInSlice n (getManagedRecordSets cluster zone) = false := by
        cases hq : stringInSlice n (getManagedRecordSets cluster zone) with
        | false => rfl
        | true =>
          exact absurd ((stringInSlice_iff _ _).mp hq) hnotman
      rw [hname, if_pos (by rw [hmatch, hsl]; rfl)]
  · rw [deleteTargetLeftoversBatchIssued]
    cases deleteTargetLeftoversChanges cluster zone rrs with
    | nil => simp
    | cons a l => simp

theorem charsMatchPairwise_refl (l : List Char) : charsMatchPairwise l l = true := by
  induction l with
  | nil => rfl
  | cons c cs ih =>
    simp only [charsMatchPairwise, ih, Bool.and_true]
    by_cases hc : c = '.'
    · subst hc; decide
    · rw [if_neg hc]; simp

theorem charsMatchPairwise_append (s1 p1 s2 p2 : List Char)
    (h : s1.length = p1.length) :
    charsMatchPairwise (s1 ++ s2) (p1 ++ p2) =
      (charsMatchPairwise s1 p1 && charsMatchPairwise s2 p2) := by
  induction s1 generalizing p1 with
  | nil =>
    cases p1 with
    | nil => simp [charsMatchPairwise]
    | cons q qs => simp at h
  | cons c cs ih =>
    cases p1 with
    | nil => simp at h
    | cons q qs =>
      simp only [List.cons_append, charsMatchPairwise, List.append_eq]
      rw [ih qs (by simpa using h), Bool.and_assoc]

theorem head?_append_of_eq {p : String} {c : Char} (r : String)
    (hp : p.data.head? = some c) : (p ++ r).data.head? = some c := by
  rw [String.data_append]
  cases hd : p.data with
  | nil => rw [hd] at hp; cases hp
  | cons a t =>
    rw [hd] at hp
    simp only [List.head?_cons] at hp
    simp [hp]

theorem ne_of_head_ne (s t : String) (c c' : Char) (hs : s.data.head? = some c)
    (ht : t.data.head? = some c') (h : c ≠ c') : s ≠ t := by
  intro he
  rw [he, ht] at hs
  exact h (Option.some.inj hs).symm

theorem head_of_prefix_chain (p : String) (c : Char) (hp : p.data.head? = some c)
    (r1 r2 r3 r4 : String) :
    ((((p ++ r1) ++ r2) ++ r3) ++ r4).data.head? = some c :=
  head?_append_of_eq _ (head?_append_of_eq _ (head?_append_of_eq _
    (head?_append_of_eq _ hp)))

/-- C10: the record-name match in `deleteTargetLeftovers` is
`regexp.Match` with the pattern `^*.<clusterID>.<hostedZoneName>.$`, in
which `^*` leaves the pattern unanchored on the left and every `.` is a
single-character wildcard; consequently, for every cluster identifier and
zone name there is a record name that is not below the cluster's
subdomain (not of the form `<sub>.<clusterID>.<hostedZoneName>.`) — here
`x<clusterID>.<hostedZoneName>.`, e.g. `xfoo.example.com.` for cluster
`foo` and zone `example.com` — that nevertheless matches the pattern, is
not in the managed allow-list, and is queued for deletion when listed. -/
theorem leftoverPattern_overmatch (cluster zone : String) :
    ∃ n : String,
      (∀ sub : String, n ≠ sub ++ "." ++ cluster ++ "." ++ zone ++ ".") ∧
      leftoverRecordSetMatch cluster zone n = true ∧
      n ∉ getManagedRecordSets cluster zone ∧
      deleteTargetLeftoversChanges cluster zone [⟨n⟩] = [n] := by
  refine ⟨"x" ++ cluster ++ "." ++ zone ++ ".", ?_, ?_, ?_, ?_⟩
  all_goals
    have hx : ("x" : String).data = ['x'] := rfl
    have hdot : (("." : String)).data = ['.'] := rfl
    have hdata : ("x" ++ cluster ++ "." ++ zone ++ "." : String).data
        = (['x'] ++ cluster.data) ++ ((['.'] ++ zone.data) ++ ['.']) := by
      simp only [String.data_append, hx, hdot, List.append_assoc]
    have hn_head : ("x" ++ cluster ++ "." ++ zone ++ "." : String).data.head? = some 'x' := by
      rw [hdata]; rfl
    have hmatch : leftoverRecordSetMatch cluster zone ("x" ++ cluster ++ "." ++ zone ++ ".") = true := by
      simp only [leftoverRecordSetMatch]
      rw [hdata]
      have hlen : ((['x'] ++ cluster.data) ++ ((['.'] ++ zone.data) ++ ['.'])).length
          = (('.' :: cluster.data) ++ (('.' :: zone.data) ++ ['.'])).length := by
        simp [List.length_append]
      rw [hlen, Nat.sub_self, List.drop_zero]
      have hpat : ('.' :: cluster.data) ++ (('.' :: zone.data) ++ ['.'])
          = (['.'] ++ cluster.data) ++ ((['.'] ++ zone.data) ++ ['.']) := rfl
      rw [hpat]
      rw [charsMatchPairwise_append _ _ _ _ (by simp)]
      rw [charsMatchPairwise_append _ _ _ _ (by simp)]
      rw [charsMatchPairwise_refl, charsMatchPairwise_refl]
      simp [charsMatchPairwise]
    have hnotman : ("x" ++ cluster ++ "." ++ zone ++ "." : String) ∉
        getManagedRecordSets cluster zone := by
      intro hmem
      simp only [getManagedRecordSets, List.mem_cons, List.not_mem_nil, or_false] at hmem
      rcases hmem with h | h | h | h | h | h | h
      · exact ne_of_head_ne _ _ 'x' '\\' hn_head
          (head_of_prefix_chain "\\052." '\\' rfl cluster "." zone ".") (by decide) h
      · exact ne_of_head_ne _ _ 'x' 'a' hn_head
          (head_of_prefix_chain "api." 'a' rfl cluster "." zone ".") (by decide) h
      · exact ne_of_head_ne _ _ 'x' 'e' hn_head
          (head_of_prefix_chain "etcd." 'e' rfl cluster "." zone ".") (by decide) h
      · exact ne_of_head_ne _ _ 'x' 'e' hn_head
          (head_of_prefix_chain "etcd1." 'e' rfl cluster "." zone ".") (by decide) h
      · exact ne_of_head_ne _ _ 'x' 'e' hn_head
          (head_of_prefix_chain "etcd2." 'e' rfl cluster "." zone ".") (by decide) h
      · exact ne_of_head_ne _ _ 'x' 'e' hn_head
          (head_of_prefix_chain "etcd3." 'e' rfl cluster "." zone ".") (by decide) h
      · exact ne_of_head_ne _ _ 'x' 'i' hn_head
          (head_of_prefix_chain "ingress." 'i' rfl cluster "." zone ".") (by decide) h
  · intro sub he
    have hlenn := congrArg String.length he
    simp only [String.length_append] at hlenn
    have hx1 : ("x" : String).length = 1 := rfl
    have hd1 : ("." : String).length = 1 := rfl
    simp only [hx1, hd1] at hlenn
    have hs : sub.length = sub.data.length := rfl
    have hsubnil : sub.data = [] := by
      have h0 : sub.data.length = 0 := by omega
      exact List.length_eq_zero.mp h0
    have hr1 : (sub ++ ".").data.head? = some '.' := by
      rw [String.data_append, hsubnil]; rfl
    exact ne_of_head_ne _ _ 'x' '.' hn_head
      (head_of_prefix_chain (sub ++ ".") '.' hr1 cluster "." zone ".") (by decide) he
  · exact hmatch
  · exact hnotman
  · have hsl : stringInSlice ("x" ++ cluster ++ "." ++ zone ++ ".")
        (getManagedRecordSets cluster zone) = false := by
      cases hq : stringInSlice ("x" ++ cluster ++ "." ++ zone ++ ".")
          (getManagedRecordSets cluster zone) with
      | false => rfl
      | true => exact absurd ((stringInSlice_iff _ _).mp hq) hnotman
    simp only [deleteTargetLeftoversChanges, List.filterMap]
    rw [if_pos (by rw [hmatch, hsl]; rfl)]

/-! ## Topology resolution: the etcd ENI peer list

`getEniList` (pkg/recordset/stack_template.go, current version) describes
the network interfaces tagged `giantswarm.io/cluster=<clusterID>`, sorts
them by their `Name` tag with `sort.Slice` and the comparator
`getNICNameFromTag(i) < getNICNameFromTag(j)`, assigns each the DNS name
`etcd<i+1>.<baseDomain>` and resource name `EtcdEniDNSRecordSet<i+1>` in
sorted order, and — when the list is non-empty — always appends one
`etcd0` record reusing the IP of the first sorted interface (the
single-master / China compatibility shim).  Go's `<` on strings is
byte-wise lexicographic; `charListLt` below is its character-wise
embedding (identical on ASCII names).  `sort.Slice` is not stable; for
distinct names the sorted order is the unique ascending one, and the
insertion sort below produces an ascending permutation. -/

/-- lexicographic strict comparison of character lists, mirroring Go's
`<` on strings. -/
def charListLt : List Char → List Char → Bool
  | _, [] => false
  | [], _ :: _ => true
  | a :: as, b :: bs =>
    if a.toNat < b.toNat then true
    else if b.toNat < a.toNat then false
    else charListLt as bs

theorem charListLt_asymm : ∀ (a b : List Char),
    charListLt a b = true → charListLt b a = false := by
  intro a
  induction a with
  | nil =>
    intro b h
    cases b with
    | nil => cases h
    | cons y ys => rfl
  | cons x xs ih =>
    intro b h
    cases b with
    | nil => cases h
    | cons y ys =>
      rw [charListLt] at h ⊢
      by_cases h1 : x.toNat < y.toNat
      · rw [if_neg (show ¬ y.toNat < x.toNat by omega), if_pos h1]
      · rw [if_neg h1] at h
        by_cases h2 : y.toNat < x.toNat
        · rw [if_pos h2] at h; cases h
        · rw [if_neg h2] at h
          rw [if_neg h2, if_neg h1]
          exact ih ys h

theorem charListLt_le_trans : ∀ (a b c : List Char),
    charListLt b a = false → charListLt c b = false → charListLt c a = false := by
  intro a
  induction a with
  | nil =>
    intro b c h1 h2
    cases c with
    | nil => rfl
    | cons z zs => rfl
  | cons x xs ih =>
    intro b c h1 h2
    cases b with
    | nil => cases h1
    | cons y ys =>
      cases c with
      | nil => cases h2
      | cons z zs =>
        rw [charListLt] at h1 h2 ⊢
        by_cases hyx : y.toNat < x.toNat
        · rw [if_pos hyx] at h1; cases h1
        · rw [if_neg hyx] at h1
          by_cases hzy : z.toNat < y.toNat
          · rw [if_pos hzy] at h2; cases h2
          · rw [if_neg hzy] at h2
            rw [if_neg (by omega)]
            by_cases hxz : x.toNat < z.toNat
            · rw [if_pos hxz]
            · rw [if_neg hxz]
              have hxy : ¬ x.toNat < y.toNat := by omega
              have hyz : ¬ y.toNat < z.toNat := by omega
              rw [if_neg hxy] at h1
              rw [if_neg hyz] at h2
              exact ih ys zs h1 h2

structure Ec2Tag where
  key : String
  value : String
deriving DecidableEq

structure NetworkInterface where
  privateIpAddress : String
  tagSet : List Ec2Tag
deriving DecidableEq, Inhabited

/-- `getNICNameFromTag` (pkg/recordset/stack_template.go, current
version): the value of the first `Name` tag, or `""` when absent. -/
def getNICNameFromTag (tags : List Ec2Tag) : String :=
  match tags.find? (fun tag => tag.key = "Name") with
  | some tag => tag.value
  | none => ""

/-- the `sort.Slice` comparator of `sortNetworkInterfacesByName`:
`getNICNameFromTag(nicList[i].TagSet) < getNICNameFromTag(nicList[j].TagSet)`. -/
def nicNameLt (a b : NetworkInterface) : Bool :=
  charListLt (getNICNameFromTag a.tagSet).data (getNICNameFromTag b.tagSet).data

/-- insertion step of the `Name`-tag sort. -/
def insertNICByName (nic : NetworkInterface) : List NetworkInterface → List NetworkInterface
  | [] => [nic]
  | x :: xs =>
    if nicNameLt x nic then x :: insertNICByName nic xs else nic :: x :: xs

/-- `sortNetworkInterfacesByName` (pkg/recordset/stack_template.go,
current version): `sort.Slice` by `Name` tag, embedded as insertion
sort. -/
def sortNetworkInterfacesByName : List NetworkInterface → List NetworkInterface
  | [] => []
  | x :: xs => insertNICByName x (sortNetworkInterfacesByName xs)

/-- `key.BaseDomain` (pkg/key/key.go). -/
def BaseDomain (clusterID hostedZoneName : String) : String :=
  clusterID ++ "." ++ hostedZoneName

/-- `key.EtcdENIDNSName` (pkg/key/key.go): `fmt.Sprintf("etcd%d.%s",
index+1, baseDomain)`. -/
def EtcdENIDNSName (baseDomain : String) (index : Int) : String :=
  "etcd" ++ toString (index + 1) ++ "." ++ baseDomain

/-- `key.EtcdEniResourceName` (pkg/key/key.go):
`fmt.Sprintf("EtcdEniDNSRecordSet%d", index+1)`. -/
def EtcdEniResourceName (index : Int) : String :=
  "EtcdEniDNSRecordSet" ++ toString (index + 1)

structure EtcdEni where
  DNSName : String
  IPAddress : String
  Name : String
deriving DecidableEq

/-- the indexed `for i, nic := range nicList` loop body of `getEniList`,
starting at index `i`. -/
def buildEniList (baseDomain : String) : Nat → List NetworkInterface → List EtcdEni
  | _, [] => []
  | i, nic :: rest =>
    ⟨EtcdENIDNSName baseDomain (Int.ofNat i), nic.privateIpAddress,
      EtcdEniResourceName (Int.ofNat i)⟩ :: buildEniList baseDomain (i + 1) rest

/-- `getEniList` (pkg/recordset/stack_template.go, current version),
taking the described network-interface list as input: sort, number the
peers from index 0, and append the `etcd0` alias (index `-1`, so the key
helpers render `0`) with the first sorted interface's IP whenever the
list is non-empty. -/
def getEniList (baseDomain : String) (nics : List NetworkInterface) : List EtcdEni :=
  let nicList := sortNetworkInterfacesByName nics
  let eniList := buildEniList baseDomain 0 nicList
  match nicList with
  | [] => eniList
  | first :: _ =>
    eniList ++ [⟨EtcdENIDNSName baseDomain (-1), first.privateIpAddress,
      EtcdEniResourceName (-1)⟩]

theorem insertNICByName_perm (nic : NetworkInterface) (l : List NetworkInterface) :
    List.Perm (insertNICByName nic l) (nic :: l) := by
  induction l with
  | nil => exact List.Perm.refl _
  | cons x xs ih =>
    rw [insertNICByName]
    by_cases hc : nicNameLt x nic = true
    · rw [if_pos hc]
      exact (ih.cons x).trans (List.Perm.swap nic x xs)
    · rw [if_neg hc]

theorem sortNetworkInterfacesByName_perm (l : List NetworkInterface) :
    List.Perm (sortNetworkInterfacesByName l) l := by
  induction l with
  | nil => exact List.Perm.refl _
  | cons x xs ih =>
    exact (insertNICByName_perm x (sortNetworkInterfacesByName xs)).trans (ih.cons x)

/-- the "ascending by `Name` tag" relation: the right element's name is
not lexicographically smaller than the left one's. -/
def nicNameAsc (a b : NetworkInterface) : Prop := nicNameLt b a = false

theorem insertNICByName_sorted (nic : NetworkInterface) (l : List NetworkInterface)
    (h : l.Pairwise nicNameAsc) :
    (insertNICByName nic l).Pairwise nicNameAsc := by
  induction l with
  | nil => simp [insertNICByName]
  | cons x xs ih =>
    rw [insertNICByName]
    rw [List.pairwise_cons] at h
    by_cases hc : nicNameLt x nic = true
    · rw [if_pos hc]
      refine List.Pairwise.cons ?_ (ih h.2)
      intro b hb
      rcases List.mem_cons.mp ((insertNICByName_perm nic xs).mem_iff.mp hb) with hb | hb
      · exact hb ▸ charListLt_asymm _ _ hc
      · exact h.1 b hb
    · rw [if_neg hc]
      have hc' : nicNameLt x nic = false := by
        cases hq : nicNameLt x nic with
        | false => rfl
        | true => exact absurd hq hc
      refine List.Pairwise.cons ?_ (List.Pairwise.cons h.1 h.2)
      intro b hb
      rcases List.mem_cons.mp hb with hb | hb
      · exact hb ▸ hc'
      · exact charListLt_le_trans _ _ _ hc' (h.1 b hb)

theorem sortNetworkInterfacesByName_sorted (l : List NetworkInterface) :
    (sortNetworkInterfacesByName l).Pairwise nicNameAsc := by
  induction l with
  | nil => simp [sortNetworkInterfacesByName]
  | cons x xs ih => exact insertNICByName_sorted x _ ih

theorem buildEniList_length (baseDomain : String) (j : Nat) (l : List NetworkInterface) :
    (buildEniList baseDomain j l).length = l.length := by
  induction l generalizing j with
  | nil => rfl
  | cons nic rest ih => simp [buildEniList, ih]

theorem buildEniList_getElem (baseDomain : String) (l : List NetworkInterface) :
    ∀ (j i : Nat),
      (buildEniList baseDomain j l)[i]? =
        l[i]?.map (fun nic =>
          ⟨EtcdENIDNSName baseDomain (Int.ofNat (j + i)), nic.privateIpAddress,
            EtcdEniResourceName (Int.ofNat (j + i))⟩) := by
  induction l with
  | nil => intro j i; simp [buildEniList]
  | cons nic rest ih =>
    intro j i
    cases i with
    | zero => simp [buildEniList]
    | succ i' =>
      rw [buildEniList]
      simp only [List.getElem?_cons_succ]
      rw [ih (j + 1) i']
      rw [show j + 1 + i' = j + (i' + 1) from by omega]

theorem EtcdENIDNSName_ofNat (b : String) (i : Nat) :
    EtcdENIDNSName b (Int.ofNat i) = "etcd" ++ toString (i + 1) ++ "." ++ b := rfl

theorem EtcdENIDNSName_zero (b : String) : EtcdENIDNSName b (-1) = "etcd0." ++ b := rfl

theorem EtcdEniResourceName_ofNat (i : Nat) :
    EtcdEniResourceName (Int.ofNat i) = "EtcdEniDNSRecordSet" ++ toString (i + 1) := rfl

theorem EtcdEniResourceName_zero : EtcdEniResourceName (-1) = "EtcdEniDNSRecordSet0" := rfl

theorem getEniList_eq (b : String) (nics : List NetworkInterface)
    (first : NetworkInterface) (rest : List NetworkInterface)
    (hs : sortNetworkInterfacesByName nics = first :: rest) :
    getEniList b nics = buildEniList b 0 (first :: rest) ++
      [⟨EtcdENIDNSName b (-1), first.privateIpAddress, EtcdEniResourceName (-1)⟩] := by
  simp only [getEniList]
  rw [hs]

/-- C4: for every non-empty described network-interface list, the etcd
peer list is built from the interfaces sorted ascending (lexicographic)
by `Name` tag — the sort is a permutation of the input and
pairwise-ascending by `getNICNameFromTag` — the peer at sorted position
`i` gets DNS name `etcd<i+1>.<baseDomain>` (so `etcd1..etcdN` in sorted
order) with that interface's IP, and one additional record
`etcd0.<baseDomain>` is always appended at the end whose IP equals the IP
of the first peer in sorted order. -/
theorem getEniList_spec (baseDomain : String) (nics : List NetworkInterface)
    (h : nics ≠ []) :
    List.Perm (sortNetworkInterfacesByName nics) nics ∧
    (sortNetworkInterfacesByName nics).Pairwise nicNameAsc ∧
    (getEniList baseDomain nics).length = nics.length + 1 ∧
    (∀ i, i < nics.length →
      (getEniList baseDomain nics)[i]? =
        (sortNetworkInterfacesByName nics)[i]?.map (fun nic =>
          ⟨"etcd" ++ toString (i + 1) ++ "." ++ baseDomain, nic.privateIpAddress,
            "EtcdEniDNSRecordSet" ++ toString (i + 1)⟩)) ∧
    (getEniList baseDomain nics)[nics.length]? =
      some ⟨"etcd0." ++ baseDomain,
        (sortNetworkInterfacesByName nics).headI.privateIpAddress,
        "EtcdEniDNSRecordSet0"⟩ := by
  have hperm := sortNetworkInterfacesByName_perm nics
  have hsorted := sortNetworkInterfacesByName_sorted nics
  have hlen : (sortNetworkInterfacesByName nics).length = nics.length := hperm.length_eq
  cases hs : sortNetworkInterfacesByName nics with
  | nil =>
    exfalso
    apply h
    rw [hs] at hperm
    exact hperm.symm.eq_nil
  | cons first rest =>
    rw [hs] at hperm hsorted hlen
    have hblen : (buildEniList baseDomain 0 (first :: rest)).length = nics.length := by
      rw [buildEniList_length]
      exact hlen
    refine ⟨hperm, hsorted, ?_, ?_, ?_⟩
    · rw [getEniList_eq baseDomain nics first rest hs]
      simp [List.length_append, hblen]
    · intro i hi
      rw [getEniList_eq baseDomain nics first rest hs]
      rw [List.getElem?_append_left (by rw [hblen]; exact hi)]
      rw [buildEniList_getElem]
      simp only [Nat.zero_add, EtcdENIDNSName_ofNat, EtcdEniResourceName_ofNat]
    · rw [getEniList_eq baseDomain nics first rest hs]
      rw [List.getElem?_append_right (by rw [hblen])]
      rw [hblen, Nat.sub_self]
      simp [EtcdENIDNSName_zero, EtcdEniResourceName_zero, List.headI]

/-- C4 witness: interfaces tagged `Name=c`, `Name=a`, `Name=b` are
rendered in order `a`, `b`, `c` as `etcd1`, `etcd2`, `etcd3`, and the
appended `etcd0` record carries the IP of `a`. -/
theorem getEniList_spec_witness :
    (getEniList "foo.example.com"
      [⟨"10.0.0.3", [⟨"Name", "c"⟩]⟩, ⟨"10.0.0.1", [⟨"Name", "a"⟩]⟩,
       ⟨"10.0.0.2", [⟨"Name", "b"⟩]⟩]).length = 4 ∧
    (getEniList "foo.example.com"
      [⟨"10.0.0.3", [⟨"Name", "c"⟩]⟩, ⟨"10.0.0.1", [⟨"Name", "a"⟩]⟩,
       ⟨"10.0.0.2", [⟨"Name", "b"⟩]⟩])[0]?
      = some ⟨"etcd1.foo.example.com", "10.0.0.1", "EtcdEniDNSRecordSet1"⟩ ∧
    (getEniList "foo.example.com"
      [⟨"10.0.0.3", [⟨"Name", "c"⟩]⟩, ⟨"10.0.0.1", [⟨"Name", "a"⟩]⟩,
       ⟨"10.0.0.2", [⟨"Name", "b"⟩]⟩])[3]?
      = some ⟨"etcd0.foo.example.com", "10.0.0.1", "EtcdEniDNSRecordSet0"⟩ := by
  have hspec := getEniList_spec "foo.example.com"
    [⟨"10.0.0.3", [⟨"Name", "c"⟩]⟩, ⟨"10.0.0.1", [⟨"Name", "a"⟩]⟩,
     ⟨"10.0.0.2", [⟨"Name", "b"⟩]⟩] (by decide)
  have hsort : sortNetworkInterfacesByName
      [⟨"10.0.0.3", [⟨"Name", "c"⟩]⟩, ⟨"10.0.0.1", [⟨"Name", "a"⟩]⟩,
       ⟨"10.0.0.2", [⟨"Name", "b"⟩]⟩]
      = [⟨"10.0.0.1", [⟨"Name", "a"⟩]⟩, ⟨"10.0.0.2", [⟨"Name", "b"⟩]⟩,
         ⟨"10.0.0.3", [⟨"Name", "c"⟩]⟩] := by decide
  refine ⟨hspec.2.2.1, ?_, ?_⟩
  · have h0 := hspec.2.2.2.1 0 (by decide)
    rw [hsort] at h0
    exact h0
  · have h3 := hspec.2.2.2.2
    rw [hsort] at h3
    exact h3

/-! ## The stack template

`targetStackTemplate` (pkg/recordset/stack_template.go, current version)
is a constant `text/template` rendered over a complete `sourceStackData`
value: parsing a constant valid template and executing it over a struct
whose fields all exist cannot fail, so rendering is a total function
here.  The rendered body is represented as its list of lines (template
whitespace-trim markers elided, blank separator lines kept); this line
view is faithful whenever the interpolated fields contain no newline
character.  Each DNS record resource block contributes exactly one
`    Type: AWS::Route53::RecordSet` line. -/

structure sourceStackData where
  HostedZoneID : String
  HostedZoneName : String
  ClusterName : String
  IngressELBDNS : String
  IsLegacyCluster : Bool
  APIELBDNS : String
  EtcdELBDNS : String
  EtcdEniList : List EtcdEni
deriving DecidableEq

/-- the resource-type line shared by every DNS record block. -/
def recordSetTypeLine : String := "    Type: AWS::Route53::RecordSet"

/-- the `{{ if .IsLegacyCluster }}` ingress block. -/
def ingressDNSRecordLines (d : sourceStackData) : List String :=
  ["  ingressDNSRecord:",
   recordSetTypeLine,
   "    Properties:",
   "      HostedZoneId: " ++ d.HostedZoneID,
   "      Name: 'ingress." ++ d.ClusterName ++ "." ++ d.HostedZoneName ++ "'",
   "      Type: CNAME",
   "      TTL: '30'",
   "      ResourceRecords:",
   "      - " ++ d.IngressELBDNS]

/-- the always-rendered ingress wildcard block, aliasing the
`ingress.<cluster>.<zone>` name. -/
def ingressWildcardDNSRecordLines (d : sourceStackData) : List String :=
  ["  ingressWildcardDNSRecord:",
   recordSetTypeLine,
   "    Properties:",
   "      HostedZoneId: " ++ d.HostedZoneID,
   "      Name: '*." ++ d.ClusterName ++ "." ++ d.HostedZoneName ++ "'",
   "      Type: CNAME",
   "      TTL: '30'",
   "      ResourceRecords:",
   "      - 'ingress." ++ d.ClusterName ++ "." ++ d.HostedZoneName ++ "'"]

/-- the API block. -/
def apiDNSRecordLines (d : sourceStackData) : List String :=
  ["  apiDNSRecord:",
   recordSetTypeLine,
   "    Properties:",
   "      HostedZoneId: " ++ d.HostedZoneID,
   "      Name: 'api." ++ d.ClusterName ++ "." ++ d.HostedZoneName ++ "'",
   "      Type: CNAME",
   "      TTL: '30'",
   "      ResourceRecords:",
   "      - " ++ d.APIELBDNS]

/-- the primary etcd endpoint block. -/
def etcdDNSRecordLines (d : sourceStackData) : List String :=
  ["  etcdDNSRecord:",
   recordSetTypeLine,
   "    Properties:",
   "      HostedZoneId: " ++ d.HostedZoneID,
   "      Name: 'etcd." ++ d.ClusterName ++ "." ++ d.HostedZoneName ++ "'",
   "      Type: CNAME",
   "      TTL: '30'",
   "      ResourceRecords:",
   "      - " ++ d.EtcdELBDNS]

/-- one `{{ range .EtcdEniList }}` block. -/
def etcdEniRecordLines (hz : String) (e : EtcdEni) : List String :=
  ["  " ++ e.Name ++ ":",
   recordSetTypeLine,
   "    Properties:",
   "      HostedZoneId: " ++ hz,
   "      Name: '" ++ e.DNSName ++ "'",
   "      Type: A",
   "      TTL: '30'",
   "      ResourceRecords:",
   "      - " ++ e.IPAddress]

/-- `getStackTemplateBody` (pkg/recordset/stack_template.go, current
version): the rendered template, line by line in template order. -/
def getStackTemplateBody (d : sourceStackData) : List String :=
  ["AWSTemplateFormatVersion: 2010-09-09",
   "Description: Recordset Guest CloudFormation stack.",
   "Resources:"]
  ++ (if d.IsLegacyCluster then ingressDNSRecordLines d ++ [""] else [])
  ++ ingressWildcardDNSRecordLines d ++ [""]
  ++ apiDNSRecordLines d ++ [""]
  ++ etcdDNSRecordLines d ++ [""]
  ++ (d.EtcdEniList.map (etcdEniRecordLines d.HostedZoneID)).flatten

theorem get4_of_append (c : Char) {a : String} (b : String)
    (h : a.data[4]? = some c) : (a ++ b).data[4]? = some c := by
  rw [String.data_append]
  rw [List.getElem?_append_left]
  · exact h
  · rcases List.getElem?_eq_some.mp h with ⟨hlt, -⟩
    exact hlt

theorem ne_of_get4 (c c' : Char) {s t : String} (hs : s.data[4]? = some c)
    (ht : t.data[4]? = some c') (hcc : c ≠ c') : s ≠ t := by
  intro he
  rw [he, ht] at hs
  exact hcc (Option.some.inj hs).symm

theorem last_of_append (x q : String) (c : Char) (hq : q.data = [c]) :
    (x ++ q).data.getLast? = some c := by
  rw [String.data_append, hq]
  exact List.getLast?_concat _

theorem ne_of_last (c c' : Char) {s t : String} (hs : s.data.getLast? = some c)
    (ht : t.data.getLast? = some c') (hcc : c ≠ c') : s ≠ t := by
  intro he
  rw [he, ht] at hs
  exact hcc (Option.some.inj hs).symm

theorem wrap_inj {p s x y : String} (h : p ++ x ++ s = p ++ y ++ s) : x = y := by
  have hd : (p.data ++ x.data) ++ s.data = (p.data ++ y.data) ++ s.data := by
    have := congrArg String.data h
    simpa [String.data_append] using this
  have hxy := List.append_cancel_left (List.append_cancel_right hd)
  cases x with
  | mk dx =>
    cases y with
    | mk dy => exact congrArg String.mk hxy

theorem count_marker_ingressBlock (d : sourceStackData) :
    List.count recordSetTypeLine (ingressDNSRecordLines d) = 1 := by
  have h1 : ("      HostedZoneId: " ++ d.HostedZoneID == recordSetTypeLine) = false :=
    beq_eq_false_iff_ne.mpr (ne_of_get4 ' ' 'T' (get4_of_append ' ' _ (by decide)) (by decide) (by decide))
  have h2 : ("      Name: 'ingress." ++ d.ClusterName ++ "." ++ d.HostedZoneName ++ "'"
      == recordSetTypeLine) = false :=
    beq_eq_false_iff_ne.mpr (ne_of_last '\'' 't' (last_of_append _ "'" '\'' rfl) (by decide) (by decide))
  have h3 : ("      - " ++ d.IngressELBDNS == recordSetTypeLine) = false :=
    beq_eq_false_iff_ne.mpr (ne_of_get4 ' ' 'T' (get4_of_append ' ' _ (by decide)) (by decide) (by decide))
  simp [ingressDNSRecordLines, List.count_cons, h1, h2, h3]
  decide

theorem count_marker_wildcardBlock (d : sourceStackData) :
    List.count recordSetTypeLine (ingressWildcardDNSRecordLines d) = 1 := by
  have h1 : ("      HostedZoneId: " ++ d.HostedZoneID == recordSetTypeLine) = false :=
    beq_eq_false_iff_ne.mpr (ne_of_get4 ' ' 'T' (get4_of_append ' ' _ (by decide)) (by decide) (by decide))
  have h2 : ("      Name: '*." ++ d.ClusterName ++ "." ++ d.HostedZoneName ++ "'"
      == recordSetTypeLine) = false :=
    beq_eq_false_iff_ne.mpr (ne_of_last '\'' 't' (last_of_append _ "'" '\'' rfl) (by decide) (by decide))
  have h3 : ("      - 'ingress." ++ d.ClusterName ++ "." ++ d.HostedZoneName ++ "'"
      == recordSetTypeLine) = false :=
    beq_eq_false_iff_ne.mpr (ne_of_last '\'' 't' (last_of_append _ "'" '\'' rfl) (by decide) (by decide))
  simp [ingressWildcardDNSRecordLines, List.count_cons, h1, h2, h3]
  decide

theorem count_marker_apiBlock (d : sourceStackData) :
    List.count recordSetTypeLine (apiDNSRecordLines d) = 1 := by
  have h1 : ("      HostedZoneId: " ++ d.HostedZoneID == recordSetTypeLine) = false :=
    beq_eq_false_iff_ne.mpr (ne_of_get4 ' ' 'T' (get4_of_append ' ' _ (by decide)) (by decide) (by decide))
  have h2 : ("      Name: 'api." ++ d.ClusterName ++ "." ++ d.HostedZoneName ++ "'"
      == recordSetTypeLine) = false :=
    beq_eq_false_iff_ne.mpr (ne_of_last '\'' 't' (last_of_append _ "'" '\'' rfl) (by decide) (by decide))
  have h3 : ("      - " ++ d.APIELBDNS == recordSetTypeLine) = false :=
    beq_eq_false_iff_ne.mpr (ne_of_get4 ' ' 'T' (get4_of_append ' ' _ (by decide)) (by decide) (by decide))
  simp [apiDNSRecordLines, List.count_cons, h1, h2, h3]
  decide

theorem count_marker_etcdBlock (d : sourceStackData) :
    List.count recordSetTypeLine (etcdDNSRecordLines d) = 1 := by
  have h1 : ("      HostedZoneId: " ++ d.HostedZoneID == recordSetTypeLine) = false :=
    beq_eq_false_iff_ne.mpr (ne_of_get4 ' ' 'T' (get4_of_append ' ' _ (by decide)) (by decide) (by decide))
  have h2 : ("      Name: 'etcd." ++ d.ClusterName ++ "." ++ d.HostedZoneName ++ "'"
      == recordSetTypeLine) = false :=
    beq_eq_false_iff_ne.mpr (ne_of_last '\'' 't' (last_of_append _ "'" '\'' rfl) (by decide) (by decide))
  have h3 : ("      - " ++ d.EtcdELBDNS == recordSetTypeLine) = false :=
    beq_eq_false_iff_ne.mpr (ne_of_get4 ' ' 'T' (get4_of_append ' ' _ (by decide)) (by decide) (by decide))
  simp [etcdDNSRecordLines, List.count_cons, h1, h2, h3]
  decide

theorem count_marker_eniBlock (hz : String) (e : EtcdEni) :
    List.count recordSetTypeLine (etcdEniRecordLines hz e) = 1 := by
  have h1 : ("  " ++ e.Name ++ ":" == recordSetTypeLine) = false :=
    beq_eq_false_iff_ne.mpr (ne_of_last ':' 't' (last_of_append _ ":" ':' rfl) (by decide) (by decide))
  have h2 : ("      HostedZoneId: " ++ hz == recordSetTypeLine) = false :=
    beq_eq_false_iff_ne.mpr (ne_of_get4 ' ' 'T' (get4_of_append ' ' _ (by decide)) (by decide) (by decide))
  have h3 : ("      Name: '" ++ e.DNSName ++ "'" == recordSetTypeLine) = false :=
    beq_eq_false_iff_ne.mpr (ne_of_last '\'' 't' (last_of_append _ "'" '\'' rfl) (by decide) (by decide))
  have h4 : ("      - " ++ e.IPAddress == recordSetTypeLine) = false :=
    beq_eq_false_iff_ne.mpr (ne_of_get4 ' ' 'T' (get4_of_append ' ' _ (by decide)) (by decide) (by decide))
  simp [etcdEniRecordLines, List.count_cons, h1, h2, h3, h4]
  decide

theorem count_marker_flatten (hz : String) (l : List EtcdEni) :
    List.count recordSetTypeLine ((l.map (etcdEniRecordLines hz)).flatten) = l.length := by
  induction l with
  | nil => rfl
  | cons e es ih =>
    simp only [List.map_cons, List.flatten_cons, List.count_append, ih,
      count_marker_eniBlock hz e, List.length_cons]
    omega

theorem count_ih_ingressBlock (d : sourceStackData) :
    List.count "  ingressDNSRecord:" (ingressDNSRecordLines d) = 1 := by
  have h1 : ("      HostedZoneId: " ++ d.HostedZoneID == "  ingressDNSRecord:") = false :=
    beq_eq_false_iff_ne.mpr (ne_of_get4 ' ' 'g' (get4_of_append ' ' _ (by decide)) (by decide) (by decide))
  have h2 : ("      Name: 'ingress." ++ d.ClusterName ++ "." ++ d.HostedZoneName ++ "'"
      == "  ingressDNSRecord:") = false :=
    beq_eq_false_iff_ne.mpr (ne_of_last '\'' ':' (last_of_append _ "'" '\'' rfl) (by decide) (by decide))
  have h3 : ("      - " ++ d.IngressELBDNS == "  ingressDNSRecord:") = false :=
    beq_eq_false_iff_ne.mpr (ne_of_get4 ' ' 'g' (get4_of_append ' ' _ (by decide)) (by decide) (by decide))
  simp [ingressDNSRecordLines, List.count_cons, h1, h2, h3]
  decide

theorem count_ih_wildcardBlock (d : sourceStackData) :
    List.count "  ingressDNSRecord:" (ingressWildcardDNSRecordLines d) = 0 := by
  have h1 : ("      HostedZoneId: " ++ d.HostedZoneID == "  ingressDNSRecord:") = false :=
    beq_eq_false_iff_ne.mpr (ne_of_get4 ' ' 'g' (get4_of_append ' ' _ (by decide)) (by decide) (by decide))
  have h2 : ("      Name: '*." ++ d.ClusterName ++ "." ++ d.HostedZoneName ++ "'"
      == "  ingressDNSRecord:") = false :=
    beq_eq_false_iff_ne.mpr (ne_of_last '\'' ':' (last_of_append _ "'" '\'' rfl) (by decide) (by decide))
  have h3 : ("      - 'ingress." ++ d.ClusterName ++ "." ++ d.HostedZoneName ++ "'"
      == "  ingressDNSRecord:") = false :=
    beq_eq_false_iff_ne.mpr (ne_of_last '\'' ':' (last_of_append _ "'" '\'' rfl) (by decide) (by decide))
  simp [ingressWildcardDNSRecordLines, List.count_cons, h1, h2, h3]
  decide

theorem count_ih_apiBlock (d : sourceStackData) :
    List.count "  ingressDNSRecord:" (apiDNSRecordLines d) = 0 := by
  have h1 : ("      HostedZoneId: " ++ d.HostedZoneID == "  ingressDNSRecord:") = false :=
    beq_eq_false_iff_ne.mpr (ne_of_get4 ' ' 'g' (get4_of_append ' ' _ (by decide)) (by decide) (by decide))
  have h2 : ("      Name: 'api." ++ d.ClusterName ++ "." ++ d.HostedZoneName ++ "'"
      == "  ingressDNSRecord:") = false :=
    beq_eq_false_iff_ne.mpr (ne_of_last '\'' ':' (last_of_append _ "'" '\'' rfl) (by decide) (by decide))
  have h3 : ("      - " ++ d.APIELBDNS == "  ingressDNSRecord:") = false :=
    beq_eq_false_iff_ne.mpr (ne_of_get4 ' ' 'g' (get4_of_append ' ' _ (by decide)) (by decide) (by decide))
  simp [apiDNSRecordLines, List.count_cons, h1, h2, h3]
  decide

theorem count_ih_etcdBlock (d : sourceStackData) :
    List.count "  ingressDNSRecord:" (etcdDNSRecordLines d) = 0 := by
  have h1 : ("      HostedZoneId: " ++ d.HostedZoneID == "  ingressDNSRecord:") = false :=
    beq_eq_false_iff_ne.mpr (ne_of_get4 ' ' 'g' (get4_of_append ' ' _ (by decide)) (by decide) (by decide))
  have h2 : ("      Name: 'etcd." ++ d.ClusterName ++ "." ++ d.HostedZoneName ++ "'"
      == "  ingressDNSRecord:") = false :=
    beq_eq_false_iff_ne.mpr (ne_of_last '\'' ':' (last_of_append _ "'" '\'' rfl) (by decide) (by decide))
  have h3 : ("      - " ++ d.EtcdELBDNS == "  ingressDNSRecord:") = false :=
    beq_eq_false_iff_ne.mpr (ne_of_get4 ' ' 'g' (get4_of_append ' ' _ (by decide)) (by decide) (by decide))
  simp [etcdDNSRecordLines, List.count_cons, h1, h2, h3]
  decide

theorem count_ih_eniBlock (hz : String) (e : EtcdEni)
    (hne : e.Name ≠ "ingressDNSRecord") :
    List.count "  ingressDNSRecord:" (etcdEniRecordLines hz e) = 0 := by
  have h1 : ("  " ++ e.Name ++ ":" == "  ingressDNSRecord:") = false :=
    beq_eq_false_iff_ne.mpr
      (fun he => hne (@wrap_inj "  " ":" e.Name "ingressDNSRecord" he))
  have h2 : ("      HostedZoneId: " ++ hz == "  ingressDNSRecord:") = false :=
    beq_eq_false_iff_ne.mpr (ne_of_get4 ' ' 'g' (get4_of_append ' ' _ (by decide)) (by decide) (by decide))
  have h3 : ("      Name: '" ++ e.DNSName ++ "'" == "  ingressDNSRecord:") = false :=
    beq_eq_false_iff_ne.mpr (ne_of_last '\'' ':' (last_of_append _ "'" '\'' rfl) (by decide) (by decide))
  have h4 : ("      - " ++ e.IPAddress == "  ingressDNSRecord:") = false :=
    beq_eq_false_iff_ne.mpr (ne_of_get4 ' ' 'g' (get4_of_append ' ' _ (by decide)) (by decide) (by decide))
  simp [etcdEniRecordLines, List.count_cons, h1, h2, h3, h4]
  decide

theorem count_ih_flatten (hz : String) (l : List EtcdEni)
    (hyp : ∀ e ∈ l, e.Name ≠ "ingressDNSRecord") :
    List.count "  ingressDNSRecord:" ((l.map (etcdEniRecordLines hz)).flatten) = 0 := by
  induction l with
  | nil => rfl
  | cons e es ih =>
    simp only [List.map_cons, List.flatten_cons, List.count_append]
    rw [count_ih_eniBlock hz e (hyp e (List.mem_cons_self e es)),
      ih (fun e' he' => hyp e' (List.mem_cons_of_mem e he'))]

/-- C5: rendering the stack template is total (a constant valid
`text/template` executed over a complete `sourceStackData` cannot fail),
and the rendered body contains exactly one DNS record resource block —
one `    Type: AWS::Route53::RecordSet` line — per: ingress (present
exactly when the payload is legacy, witnessed by its `ingressDNSRecord`
header count), ingress-wildcard, api, the primary etcd endpoint, and one
per element of the etcd peer list.  The `EtcdEni` resource names produced
by `key.EtcdEniResourceName` are `EtcdEniDNSRecordSet<n>`, never
`ingressDNSRecord`, which the hypothesis records. -/
theorem getStackTemplateBody_spec (d : sourceStackData)
    (hname : ∀ e ∈ d.EtcdEniList, e.Name ≠ "ingressDNSRecord") :
    List.count recordSetTypeLine (getStackTemplateBody d)
      = (if d.IsLegacyCluster then 1 else 0) + 3 + d.EtcdEniList.length ∧
    List.count "  ingressDNSRecord:" (getStackTemplateBody d)
      = (if d.IsLegacyCluster then 1 else 0) ∧
    "  ingressWildcardDNSRecord:" ∈ getStackTemplateBody d ∧
    "  apiDNSRecord:" ∈ getStackTemplateBody d ∧
    "  etcdDNSRecord:" ∈ getStackTemplateBody d ∧
    ∀ e ∈ d.EtcdEniList, ("  " ++ e.Name ++ ":") ∈ getStackTemplateBody d := by
  refine ⟨?_, ?_, ?_, ?_, ?_, ?_⟩
  · simp only [getStackTemplateBody, List.count_append]
    rw [count_marker_wildcardBlock, count_marker_apiBlock, count_marker_etcdBlock,
      count_marker_flatten]
    cases hleg : d.IsLegacyCluster with
    | true =>
      simp only [eq_self_iff_true, if_true, List.count_append]
      rw [count_marker_ingressBlock]
      have hcs : List.count recordSetTypeLine
          ["AWSTemplateFormatVersion: 2010-09-09",
           "Description: Recordset Guest CloudFormation stack.", "Resources:"] = 0 := by
        decide
      have hblank : List.count recordSetTypeLine [""] = 0 := by decide
      rw [hcs, hblank]
    | false =>
      simp only [Bool.false_eq_true, if_false]
      have hcs : List.count recordSetTypeLine
          ["AWSTemplateFormatVersion: 2010-09-09",
           "Description: Recordset Guest CloudFormation stack.", "Resources:"] = 0 := by
        decide
      have hblank : List.count recordSetTypeLine [""] = 0 := by decide
      rw [hcs, hblank]
      simp
  · simp only [getStackTemplateBody, List.count_append]
    rw [count_ih_wildcardBlock, count_ih_apiBlock, count_ih_etcdBlock,
      count_ih_flatten d.HostedZoneID d.EtcdEniList hname]
    cases hleg : d.IsLegacyCluster with
    | true =>
      simp only [eq_self_iff_true, if_true, List.count_append]
      rw [count_ih_ingressBlock]
      have hcs : List.count "  ingressDNSRecord:"
          ["AWSTemplateFormatVersion: 2010-09-09",
           "Description: Recordset Guest CloudFormation stack.", "Resources:"] = 0 := by
        decide
      have hblank : List.count "  ingressDNSRecord:" [""] = 0 := by decide
      rw [hcs, hblank]
    | false =>
      simp only [Bool.false_eq_true, if_false]
      have hcs : List.count "  ingressDNSRecord:"
          ["AWSTemplateFormatVersion: 2010-09-09",
           "Description: Recordset Guest CloudFormation stack.", "Resources:"] = 0 := by
        decide
      have hblank : List.count "  ingressDNSRecord:" [""] = 0 := by decide
      rw [hcs, hblank]
      simp
  · simp [getStackTemplateBody, ingressWildcardDNSRecordLines]
  · simp [getStackTemplateBody, apiDNSRecordLines]
  · simp [getStackTemplateBody, etcdDNSRecordLines]
  · intro e he
    have hblock : ("  " ++ e.Name ++ ":") ∈ etcdEniRecordLines d.HostedZoneID e := by
      simp [etcdEniRecordLines]
    have hfl : ("  " ++ e.Name ++ ":") ∈
        (d.EtcdEniList.map (etcdEniRecordLines d.HostedZoneID)).flatten :=
      List.mem_flatten.mpr ⟨_, List.mem_map_of_mem _ he, hblock⟩
    simp only [getStackTemplateBody, List.mem_append]
    exact Or.inr hfl

/-- C5 witness: a legacy payload with one etcd peer renders five DNS
record blocks (ingress, wildcard, api, etcd, one peer) and exactly one
ingress block header. -/
theorem getStackTemplateBody_spec_witness :
    List.count recordSetTypeLine (getStackTemplateBody
      ⟨"Z123", "example.com", "foo", "ingress-elb.aws", true, "api-elb.aws",
        "etcd-elb.aws",
        [⟨"etcd1.foo.example.com", "10.0.0.1", "EtcdEniDNSRecordSet1"⟩]⟩) = 5 ∧
    List.count "  ingressDNSRecord:" (getStackTemplateBody
      ⟨"Z123", "example.com", "foo", "ingress-elb.aws", true, "api-elb.aws",
        "etcd-elb.aws",
        [⟨"etcd1.foo.example.com", "10.0.0.1", "EtcdEniDNSRecordSet1"⟩]⟩) = 1 := by
  have h := getStackTemplateBody_spec
    ⟨"Z123", "example.com", "foo", "ingress-elb.aws", true, "api-elb.aws",
      "etcd-elb.aws",
      [⟨"etcd1.foo.example.com", "10.0.0.1", "EtcdEniDNSRecordSet1"⟩]⟩
    (by decide)
  exact ⟨h.1.trans (by decide), h.2.1.trans (by decide)⟩
